import Mathlib

/-
  Verification of the HTTP request executor of the repository
  (src/src/http-test-core/RequestExecutor.ts), shallowly embedded in Lean 4.

  External collaborators of the executor (node-fetch, the JSON parser of
  JsonUtils, the URL parser of the `url` module, the variable substitution
  function of VariableManager, and the filesystem) are modelled as explicit
  function parameters collected in a `World` record, so that every theorem
  quantifies over their behaviour.  The executor's own control flow, string
  processing and error handling are translated line by line from the source.
-/

set_option autoImplicit false

namespace RestClient

/-- JSON values as produced by a JSON parser; numbers are modelled as
integers (the claims under study never depend on fractional numerics). -/
inductive Json where
  | null : Json
  | bool (b : Bool) : Json
  | num (n : Int) : Json
  | str (s : String) : Json
  | arr (elems : List Json) : Json
  | obj (fields : List (String × Json)) : Json

/-- JavaScript truthiness of a JSON value: `false`, `0`, `null` and the
empty string are falsy; arrays and objects are always truthy. -/
def jsonTruthy : Json → Bool
  | .null => false
  | .bool b => b
  | .num n => decide (n ≠ 0)
  | .str s => decide (s ≠ "")
  | .arr _ => true
  | .obj _ => true

/-- Escapes quotes and backslashes, as `JSON.stringify` does for the
characters relevant here. -/
def escapeJsonString (s : String) : String :=
  s.foldl
    (fun acc c =>
      acc ++ (if c = '"' then "\\\"" else if c = '\\' then "\\\\" else String.singleton c))
    ""

mutual

/-- `JSON.stringify` on the modelled JSON values (compact form). -/
def jsonStringify : Json → String
  | .null => "null"
  | .bool true => "true"
  | .bool false => "false"
  | .num n => toString n
  | .str s => "\"" ++ escapeJsonString s ++ "\""
  | .arr elems => "[" ++ String.intercalate "," (stringifyList elems) ++ "]"
  | .obj fields => "\x7b" ++ String.intercalate "," (stringifyFields fields) ++ "\x7d"

/-- Serializes each element of a JSON array. -/
def stringifyList : List Json → List String
  | [] => []
  | j :: rest => jsonStringify j :: stringifyList rest

/-- Serializes each field of a JSON object. -/
def stringifyFields : List (String × Json) → List String
  | [] => []
  | (k, v) :: rest => ("\"" ++ escapeJsonString k ++ "\":" ++ jsonStringify v) :: stringifyFields rest

end

mutual

/-- Applies a string transformation to every string literal inside a JSON
value.  This is the reading of the specification under which variable
substitution reaches the inside of a structured body; it is used only to
state the specification side of claim C8. -/
def jsonMapStrings (f : String → String) : Json → Json
  | .null => .null
  | .bool b => .bool b
  | .num n => .num n
  | .str s => .str (f s)
  | .arr elems => .arr (mapStringsList f elems)
  | .obj fields => .obj (mapStringsFields f fields)

/-- `jsonMapStrings` over the elements of an array. -/
def mapStringsList (f : String → String) : List Json → List Json
  | [] => []
  | j :: rest => jsonMapStrings f j :: mapStringsList f rest

/-- `jsonMapStrings` over the fields of an object. -/
def mapStringsFields (f : String → String) : List (String × Json) → List (String × Json)
  | [] => []
  | (k, v) :: rest => (k, jsonMapStrings f v) :: mapStringsFields f rest

end

/-- ASCII lowercasing of one character (`toLowerCase` on header keys, which
are ASCII). -/
def lowerChar (c : Char) : Char :=
  if 'A' ≤ c ∧ c ≤ 'Z' then Char.ofNat (c.toNat + 32) else c

/-- `s.toLowerCase()` on ASCII strings. -/
def lowerStr (s : String) : String :=
  ⟨s.toList.map lowerChar⟩

/-- The whitespace characters `trim` strips in the inputs at hand. -/
def isWsChar (c : Char) : Bool :=
  c = ' ' || c = '\t' || c = '\n' || c = '\r'

/-- `s.trim()`. -/
def trimStr (s : String) : String :=
  ⟨((s.toList.dropWhile isWsChar).reverse.dropWhile isWsChar).reverse⟩

/-- Splitting on every non-overlapping occurrence of a (nonempty) separator,
leftmost first, keeping empty pieces — the semantics of JS
`String.prototype.split` with a string separator.  The fuel argument (the
input length suffices) only makes the recursion structural. -/
def splitOnAuxFuel (sep : List Char) : Nat → List Char → List (List Char)
  | _, [] => [[]]
  | 0, l => [l]
  | Nat.succ n, c :: rest =>
    if sep.isPrefixOf (c :: rest) then
      [] :: splitOnAuxFuel sep n ((c :: rest).drop sep.length)
    else
      match splitOnAuxFuel sep n rest with
      | [] => [[c]]
      | g :: gs => (c :: g) :: gs

/-- `s.split(sep)` for a nonempty string separator. -/
def splitStr (s sep : String) : List String :=
  (splitOnAuxFuel sep.toList s.toList.length s.toList).map (fun l => ⟨l⟩)

/-- Whether a path is absolute, for the `path.resolve` model. -/
def isAbsolutePath (p : String) : Bool :=
  match p.toList with
  | '/' :: _ => true
  | _ => false

/-- Lookup in a JavaScript-object-like header mapping: exact key match,
first (and in a real JS object only) occurrence. -/
def hget (hs : List (String × String)) (k : String) : Option String :=
  (hs.find? (fun p => p.1 == k)).map (fun p => p.2)

/-- `delete obj[k]` on a JavaScript-object-like header mapping. -/
def hdel (hs : List (String × String)) (k : String) : List (String × String) :=
  hs.filter (fun p => p.1 != k)

/-- `obj[k] = v` on a JavaScript-object-like header mapping: overwrite in
place when the key exists, append otherwise. -/
def hset (hs : List (String × String)) (k v : String) : List (String × String) :=
  if hs.any (fun p => p.1 == k) then
    hs.map (fun p => if p.1 == k then (k, v) else p)
  else
    hs ++ [(k, v)]

/-- Case-insensitive header lookup, the discipline the specification
prescribes for downstream header access; stated only to formalise claim C4's
wording, the executor itself uses `hget`. -/
def caseInsensitiveGet (hs : List (String × String)) (k : String) : Option String :=
  (hs.find? (fun p => lowerStr p.1 == lowerStr k)).map (fun p => p.2)

/-- JavaScript truthiness filter on an optional string: both `undefined`
and the empty string are falsy. -/
def jsTruthy : Option String → Option String
  | none => none
  | some s => if s = "" then none else some s

/-- The executor's effective Content-Type:
`headers["Content-Type"] || headers["content-type"]`, with a JavaScript
truthiness test (the empty string falls through). -/
def effContentType (hs : List (String × String)) : Option String :=
  match jsTruthy (hget hs "Content-Type") with
  | some v => some v
  | none => jsTruthy (hget hs "content-type")

/-- Whether `needle` occurs inside the character list (JS `includes`). -/
def listHasInfixChars (needle : List Char) : List Char → Bool
  | [] => needle.isEmpty
  | c :: rest => needle.isPrefixOf (c :: rest) || listHasInfixChars needle rest

/-- JS `haystack.includes(needle)`. -/
def containsSubstring (hay needle : String) : Bool :=
  listHasInfixChars needle.toList hay.toList

/-- The remainder after the first occurrence of `needle`, if any. -/
def afterFirst (needle : List Char) : List Char → Option (List Char)
  | [] => if needle.isEmpty then some [] else none
  | c :: rest =>
    if needle.isPrefixOf (c :: rest) then some ((c :: rest).drop needle.length)
    else afterFirst needle rest

/-- The boundary extracted by `contentType.match(/boundary=(.+)$/)` and then
trimmed: everything after the first `boundary=`, which must be nonempty. -/
def boundaryOf (ct : String) : Option String :=
  match afterFirst "boundary=".toList ct.toList with
  | some rest => if rest.isEmpty then none else some (trimStr (String.mk rest))
  | none => none

/-- The shortest nonempty prefix terminated by a following double quote,
i.e. the capture of the lazy group in a pattern of the shape marker-then
quoted text: the first character is taken unconditionally, then characters
up to the next quote. -/
def lazyQuotedCapture : List Char → Option (List Char)
  | [] => none
  | c :: rest =>
    (takeToQuote rest).map (fun t => c :: t)
where
  /-- Characters up to (excluding) the first double quote; fails without one. -/
  takeToQuote : List Char → Option (List Char)
    | [] => none
    | c :: rest => if c = '"' then some [] else (takeToQuote rest).map (fun t => c :: t)

/-- The capture of the first successful match of a regex of the shape
marker-then-lazy-quoted-group, scanning start positions left to right as the
JS engine does (e.g. the `name="..."` and `filename="..."` extractions of
`buildFormData`). -/
def extractQuoted (marker : String) (s : String) : Option String :=
  go marker.toList s.toList
where
  /-- Scans for the leftmost occurrence of the marker that is followed by a
  nonempty lazily-quoted capture. -/
  go (m : List Char) : List Char → Option String
    | [] => none
    | c :: rest =>
      if m.isPrefixOf (c :: rest) then
        match lazyQuotedCapture ((c :: rest).drop m.length) with
        | some cap => some (String.mk cap)
        | none => go m rest
      else go m rest

/-- Splits a line as the unanchored regex match of
one-or-more-lazily, colon, space, one-or-more does: the first character goes
to the key unconditionally, then the scan finds the earliest colon-space with
a nonempty remainder. -/
def splitHeaderLine : List Char → Option (List Char × List Char)
  | [] => none
  | c :: rest => (go rest).map (fun p => (c :: p.1, p.2))
where
  /-- Finds the earliest `: ` with a nonempty suffix, returning the parts
  before and after it. -/
  go : List Char → Option (List Char × List Char)
    | [] => none
    | [_] => none
    | c :: d :: rest =>
      if c = ':' ∧ d = ' ' ∧ rest ≠ [] then some ([], rest)
      else (go (d :: rest)).map (fun p => (c :: p.1, p.2))

/-- A structured request as consumed by `RequestExecutor.execute`: the body
is either raw text (`Sum.inl`), structured JSON (`Sum.inr`), or absent. -/
structure HttpRequest where
  name : String
  method : String
  url : String
  headers : List (String × String)
  body : Option (Sum String Json)

/-- The uniform response record the executor returns: `data` is either a
parsed JSON value (`Sum.inl`) or raw body text (`Sum.inr`). -/
structure HttpResponse where
  status : Nat
  headers : List (String × String)
  data : Sum Json String

/-- A wire-level response as node-fetch delivers it (or as attached to a
thrown error): status, headers, and the full body read as text. -/
structure RawResponse where
  status : Nat
  headers : List (String × String)
  body : String
deriving DecidableEq

/-- The shape of a thrown JavaScript value as the executor's error handling
inspects it: whether it is an `Error` instance, its `type` property when
present, its attached `response` object when present, and its message
(`String(error)` for non-`Error` values). -/
structure JsError where
  isError : Bool
  typ : Option String
  response : Option RawResponse
  message : String
deriving DecidableEq

/-- A value appended to the reconstructed multipart form: either a file
stream opened at a resolved absolute path, or literal text (which is absent
when the part had no content lines at all). -/
inductive FormValue where
  | fileStream (absolutePath : String) : FormValue
  | text (content : Option String) : FormValue
deriving DecidableEq

/-- One field appended to the form-data object, with the options the source
passes (`filename` and `contentType` when present). -/
structure FormEntry where
  name : String
  value : FormValue
  filename : Option String
  contentType : Option String
deriving DecidableEq

/-- The body finally handed to node-fetch. -/
inductive BodyData where
  | none : BodyData
  | str (s : String) : BodyData
  | structured (j : Json) : BodyData
  | form (entries : List FormEntry) (boundary : String) : BodyData

/-- One call to `fetch`: the options object the executor passes, including
the fixed timeout and the TLS policy of the shared `https.Agent`. -/
structure FetchConfig where
  method : String
  url : String
  headers : List (String × String)
  body : BodyData
  timeout : Nat
  agentRejectUnauthorized : Bool

/-- `serverCheckTimeout`. -/
def serverCheckTimeout : Nat := 5000

/-- `requestTimeout`. -/
def requestTimeout : Nat := 10000

/-- The executor's external collaborators, modelled as explicit functions:
`repl` is `VariableManager.replaceVariables`, `parse` is
`JsonUtils.parseJson` (`none` on parse failure), `urlOk` is whether
`new URL(url)` succeeds, `fsEx` is `fs.existsSync`, `boundary` is the random
boundary the form-data library generates, `probeResult` is the outcome of
the HEAD-probe fetch (`some e` when it throws `e`), and `dispatch` is the
outcome of the main fetch. -/
structure World where
  repl : String → String
  parse : String → Option Json
  urlOk : String → Bool
  fsEx : String → Bool
  boundary : String
  probeResult : Option JsError
  dispatch : Except JsError RawResponse

/-- `applyVariables`: substitutes variables in the url, in every header
value, and in the body when — and only when — the body is a raw string. -/
def applyVariables (repl : String → String) (r : HttpRequest) : HttpRequest :=
  { r with
    url := repl r.url
    headers := r.headers.map (fun p => (p.1, repl p.2))
    body :=
      match r.body with
      | some (Sum.inl s) => some (Sum.inl (repl s))
      | other => other }

/-- The substitution step as the specification words it, reaching inside a
structured body as well; stated only to compare with `applyVariables` for
claim C8. -/
def specApplyVariables (repl : String → String) (r : HttpRequest) : HttpRequest :=
  { r with
    url := repl r.url
    headers := r.headers.map (fun p => (p.1, repl p.2))
    body :=
      match r.body with
      | some (Sum.inl s) => some (Sum.inl (repl s))
      | some (Sum.inr j) => some (Sum.inr (jsonMapStrings repl j))
      | none => none }

/-- An `Error` instance with no `type` and no `response` property, as thrown
by `validateUrl`, `checkServerStatus` and the multipart construction. -/
def plainError (msg : String) : JsError :=
  { isError := true, typ := none, response := none, message := msg }

/-- The fetch options of the HEAD liveness probe in `checkServerStatus`. -/
def probeConfig (url : String) : FetchConfig :=
  { method := "HEAD", url := url, headers := [], body := BodyData.none,
    timeout := serverCheckTimeout, agentRejectUnauthorized := false }

/-- `checkServerStatus` error handling: a probe failure that is an `Error`
with `type === "request-timeout"` raises; every other probe outcome is
swallowed. -/
def checkServerStatus (probeResult : Option JsError) (url : String) : Except String Unit :=
  match probeResult with
  | some e =>
    if e.isError = true ∧ e.typ = some "request-timeout" then
      Except.error ("Server is not responding at " ++ url ++ ". Please check if the server is running.")
    else Except.ok ()
  | none => Except.ok ()

/-- `path.resolve(this.baseDir, filePath)` restricted to the cases the
executor meets: an absolute path is kept, a relative one is joined to the
base directory. -/
def resolvePath (baseDir p : String) : String :=
  if isAbsolutePath p then p else baseDir ++ "/" ++ p

/-- The line-scanning loop of `buildFormData`: every line of the part that
matches the header pattern becomes a (lowercased-key) header, every other
nonblank line is accumulated into the content, joined back with CRLF. -/
def parsePartLines (part : String) : List (String × String) × Option String :=
  (splitStr part "\r\n").foldl
    (fun acc line =>
      if trimStr line = "" then acc
      else
        match splitHeaderLine line.toList with
        | some (k, v) => (hset acc.1 (lowerStr (String.mk k)) (String.mk v), acc.2)
        | none =>
          match acc.2 with
          | none => (acc.1, some line)
          | some c => (acc.1, some (c ++ "\r\n" ++ line)))
    ([], none)

/-- The tail of `buildFormData` after line scanning: extracts `name` and
`filename` from the Content-Disposition header, then either appends a file
stream (the file path being the second space-separated token of the
content) or appends the literal content as text. -/
def finishFormData (fsEx : String → Bool) (baseDir : String)
    (hs : List (String × String)) (content : Option String) : Except String FormEntry :=
  let cd := hget hs "content-disposition"
  let nameOpt := cd.bind (fun s => extractQuoted "name=\"" s)
  let filenameOpt := cd.bind (fun s => extractQuoted "filename=\"" s)
  let ctOpt := hget hs "content-type"
  match nameOpt with
  | none => Except.error "Name not found in Content-Disposition header."
  | some nm =>
    match filenameOpt, content with
    | some _, some c =>
      if c = "" then Except.ok ⟨nm, FormValue.text content, filenameOpt, ctOpt⟩
      else
        let fp := (splitStr c " ").getD 1 ""
        if fp = "" then Except.error "Invalid file path format."
        else if fsEx (resolvePath baseDir fp) then
          Except.ok ⟨nm, FormValue.fileStream (resolvePath baseDir fp), filenameOpt, ctOpt⟩
        else Except.error (fp ++ " is not found.")
    | _, _ => Except.ok ⟨nm, FormValue.text content, filenameOpt, ctOpt⟩

/-- `buildFormData` on one part: scan the lines, then append one entry. -/
def buildFormData (fsEx : String → Bool) (baseDir : String) (part : String) :
    Except String FormEntry :=
  let (hs, content) := parsePartLines part
  finishFormData fsEx baseDir hs content

/-- `parseFormData`: find the boundary in the effective Content-Type, split
the body on `--boundary`, drop blank parts and the terminal `--`, and build
one form entry per remaining part. -/
def parseFormData (fsEx : String → Bool) (baseDir : String)
    (hs : List (String × String)) (body : String) : Except String (List FormEntry) :=
  match effContentType hs with
  | none => Except.error "Content-Type header not found."
  | some ct =>
    match boundaryOf ct with
    | none => Except.error "Boundary not found in Content-Type header."
    | some boundary =>
      let parts := (splitStr body ("--" ++ boundary)).filter
        (fun p => ¬(trimStr p = "" ∨ p = "--"))
      parts.foldlM
        (fun acc part => (buildFormData fsEx baseDir part).map (fun e => acc ++ [e]))
        []

/-- `let data: string | FormData | undefined = body as string` — the body as
it stands before any branch rewrites it. -/
def initialBodyData : Option (Sum String Json) → BodyData
  | Option.none => BodyData.none
  | some (Sum.inl s) => BodyData.str s
  | some (Sum.inr j) => BodyData.structured j

/-- The body of the `application/json` branch:
`typeof body === "string" ? body : JSON.stringify(body)` (and
`JSON.stringify(undefined)` is `undefined`). -/
def jsonBodyData : Option (Sum String Json) → BodyData
  | some (Sum.inl s) => BodyData.str s
  | some (Sum.inr j) => BodyData.str (jsonStringify j)
  | Option.none => BodyData.none

/-- The request headers after the multipart branch: both stored casings of
Content-Type deleted, then the form-data library's own
`content-type` boundary header spread in. -/
def multipartHeaders (hs : List (String × String)) (boundary : String) :
    List (String × String) :=
  hset (hdel (hdel hs "Content-Type") "content-type") "content-type"
    ("multipart/form-data; boundary=" ++ boundary)

/-- The body/header computation of `sendRequest` up to and including the
options object passed to the main `fetch` call. -/
def buildFetchConfig (fsEx : String → Bool) (baseDir boundary : String)
    (r : HttpRequest) : Except String FetchConfig :=
  match effContentType r.headers with
  | none =>
    Except.ok ⟨r.method, r.url, r.headers, initialBodyData r.body, requestTimeout, false⟩
  | some ct =>
    if containsSubstring ct "application/json" then
      Except.ok ⟨r.method, r.url, r.headers, jsonBodyData r.body, requestTimeout, false⟩
    else if containsSubstring ct "multipart/form-data" then
      match r.body with
      | some (Sum.inl s) =>
        (parseFormData fsEx baseDir r.headers s).map (fun entries =>
          ⟨r.method, r.url, multipartHeaders r.headers boundary,
           BodyData.form entries boundary, requestTimeout, false⟩)
      | _ => Except.error "body.split is not a function"
    else
      Except.ok ⟨r.method, r.url, r.headers, initialBodyData r.body, requestTimeout, false⟩

/-- The response-assembly step of `execute`:
`JsonUtils.parseJson(responseData) || responseData` — the parsed value is
kept only when it is truthy, otherwise the raw text is retained. -/
def computeData (parse : String → Option Json) (raw : String) : Sum Json String :=
  match parse raw with
  | some v => if jsonTruthy v then Sum.inl v else Sum.inr raw
  | none => Sum.inr raw

/-- `handleRequestError`: a timeout-typed `Error` raises the timeout
`RequestError`; an `Error` carrying a `response` yields a `Response` whose
`data` is the attached body text; everything else raises a `RequestError`
embedding the original message. -/
def handleRequestError (e : JsError) (req : HttpRequest) : Except String HttpResponse :=
  if e.isError = true then
    if e.typ = some "request-timeout" then
      Except.error ("Request to " ++ req.url ++ " timed out. Please check your network connection and server status.")
    else
      match e.response with
      | some resp => Except.ok ⟨resp.status, resp.headers, Sum.inr resp.body⟩
      | none => Except.error ("Request to " ++ req.url ++ " failed: " ++ e.message)
  else
    Except.error ("Request to " ++ req.url ++ " failed: " ++ e.message)

/-- `execute`: variable substitution, then — inside one try/catch whose
handler is `handleRequestError` — URL validation, the liveness probe, body
construction, the main dispatch and response assembly.  The second component
is the list of `fetch` calls actually issued, in order. -/
def execute (w : World) (baseDir : String) (r : HttpRequest) :
    Except String HttpResponse × List FetchConfig :=
  let p := applyVariables w.repl r
  let inner : Except JsError HttpResponse × List FetchConfig :=
    if w.urlOk p.url then
      match checkServerStatus w.probeResult p.url with
      | Except.error msg => (Except.error (plainError msg), [probeConfig p.url])
      | Except.ok _ =>
        match buildFetchConfig w.fsEx baseDir w.boundary p with
        | Except.error msg => (Except.error (plainError msg), [probeConfig p.url])
        | Except.ok cfg =>
          match w.dispatch with
          | Except.error e => (Except.error e, [probeConfig p.url, cfg])
          | Except.ok resp =>
            (Except.ok ⟨resp.status, resp.headers, computeData w.parse resp.body⟩,
             [probeConfig p.url, cfg])
    else (Except.error (plainError ("Invalid URL: " ++ p.url)), [])
  match inner.1 with
  | Except.ok resp => (Except.ok resp, inner.2)
  | Except.error e => (handleRequestError e p, inner.2)

/-- A JSON parser fragment: maps the body text `false` to the JSON value
`false` (as any conformant JSON parser does) and fails elsewhere. -/
def cxParse : String → Option Json :=
  fun s => if s = "false" then some (Json.bool false) else none

/-- A concrete world: substitution is the identity, every URL is valid,
every file exists, the probe succeeds, and the dispatch returns status 200
with body text `false`. -/
def cxWorld : World :=
  { repl := id, parse := cxParse, urlOk := fun _ => true, fsEx := fun _ => true,
    boundary := "GEN", probeResult := none,
    dispatch := Except.ok ⟨200, [], "false"⟩ }

/-- A concrete request with no headers and no body. -/
def cxReq : HttpRequest :=
  { name := "n", method := "GET", url := "http://x", headers := [], body := none }

/-- The fetch options `cxReq` produces. -/
def cxMainCfg : FetchConfig :=
  { method := "GET", url := "http://x", headers := [], body := BodyData.none,
    timeout := requestTimeout, agentRejectUnauthorized := false }

/-- A hand-authored multipart body with one text part. -/
def mpBody : String :=
  "--B\r\nContent-Disposition: form-data; name=\"t\"\r\n\r\nv\r\n--B--"

/-- A multipart request whose Content-Type is stored under the casing
`Content-type`, which is neither of the two casings the executor checks. -/
def mpReqOddCase : HttpRequest :=
  { name := "n", method := "POST", url := "http://x",
    headers := [("Content-type", "multipart/form-data; boundary=B")],
    body := some (Sum.inl mpBody) }

/-- The same multipart request stored under the exact casing
`Content-Type`. -/
def mpReqExact : HttpRequest :=
  { name := "n", method := "POST", url := "http://x",
    headers := [("Content-Type", "multipart/form-data; boundary=B")],
    body := some (Sum.inl mpBody) }

/-- A Content-Disposition header declaring a field name and a filename. -/
def cdHeader : String := "form-data; name=\"f\"; filename=\"a.png\""

/-- The parsed sub-headers of a file part. -/
def filePartHs : List (String × String) := [("content-disposition", cdHeader)]

/-- A request whose Content-Type is stored under the casing `CONTENT-TYPE`
with a structured JSON body. -/
def ctOddReq : HttpRequest :=
  { name := "n", method := "POST", url := "http://x",
    headers := [("CONTENT-TYPE", "application/json")],
    body := some (Sum.inr (Json.obj [])) }

/-- A substitution that rewrites every string to `Z`. -/
def replZ : String → String := fun _ => "Z"

/-- A request with a structured JSON body containing a placeholder. -/
def structReq : HttpRequest :=
  { name := "n", method := "POST", url := "http://x", headers := [],
    body := some (Sum.inr (Json.str "$\x7bx\x7d")) }

/-- A dispatch error carrying an attached response. -/
def respErr : JsError :=
  { isError := true, typ := none, response := some ⟨404, [("c", "d")], "oops"⟩,
    message := "m" }

/-- A parser that maps every text to the truthy JSON value `1`. -/
def parseOne : String → Option Json := fun _ => some (Json.num 1)

/-- `cxWorld` with a probe that fails with a timeout-typed error. -/
def probeTimeoutWorld : World :=
  { cxWorld with
    probeResult := some { isError := true, typ := some "request-timeout",
                          response := none, message := "pt" } }

/-- `cxWorld` with a URL parser that rejects every URL. -/
def badUrlWorld : World :=
  { cxWorld with urlOk := fun _ => false }

/-- Helper: inversion for a successful `Except.map`. -/
theorem except_map_ok {α β γ : Type} (f : α → β) (x : Except γ α) (b : β)
    (h : Except.map f x = Except.ok b) : ∃ a, x = Except.ok a ∧ f a = b := by
  cases x with
  | error e => simp [Except.map] at h
  | ok a =>
    refine ⟨a, rfl, ?_⟩
    simpa [Except.map] using h

/-- Helper: a probe outcome that is not a timeout-typed error is swallowed
by `checkServerStatus`. -/
theorem checkServerStatus_ok_of_not_timeout (pr : Option JsError) (u : String)
    (h : ∀ e, pr = some e → ¬(e.isError = true ∧ e.typ = some "request-timeout")) :
    checkServerStatus pr u = Except.ok () := by
  cases hpr : pr with
  | none => rfl
  | some e =>
    have hne := h e hpr
    simp only [checkServerStatus, if_neg hne]

/-- Claim C2 (confirmed): `handleRequestError` classifies every dispatch
failure into exactly three outcomes — a timeout-typed `Error` raises the
timeout `RequestError`; an `Error` carrying an attached response returns a
`Response` built from the attached status, headers and body; every other
failure (an `Error` without a response, or a non-`Error` throw) raises a
`RequestError` embedding the original message. -/
theorem claim_C2 (e : JsError) (req : HttpRequest) :
    (e.isError = true → e.typ = some "request-timeout" →
      handleRequestError e req =
        Except.error ("Request to " ++ req.url ++ " timed out. Please check your network connection and server status.")) ∧
    (e.isError = true → e.typ ≠ some "request-timeout" → ∀ r, e.response = some r →
      handleRequestError e req = Except.ok ⟨r.status, r.headers, Sum.inr r.body⟩) ∧
    (e.isError = true → e.typ ≠ some "request-timeout" → e.response = none →
      handleRequestError e req =
        Except.error ("Request to " ++ req.url ++ " failed: " ++ e.message)) ∧
    (e.isError = false →
      handleRequestError e req =
        Except.error ("Request to " ++ req.url ++ " failed: " ++ e.message)) := by
  refine ⟨?_, ?_, ?_, ?_⟩
  · intro h1 h2
    simp [handleRequestError, h1, h2]
  · intro h1 h2 r h3
    simp [handleRequestError, h1, h2, h3]
  · intro h1 h2 h3
    simp [handleRequestError, h1, h2, h3]
  · intro h1
    simp [handleRequestError, h1]

/-- Claim C2 witness: a concrete timeout-typed error raises the timeout
message. -/
theorem claim_C2_witness :
    handleRequestError ⟨true, some "request-timeout", none, "m"⟩ cxReq =
      Except.error "Request to http://x timed out. Please check your network connection and server status." :=
  (claim_C2 ⟨true, some "request-timeout", none, "m"⟩ cxReq).1 rfl rfl

/-- Claim C9 (confirmed): whenever a dispatch error carries an attached
response, the returned `Response` has `data` equal to the raw body text of
that attached response — JSON parsing is never attempted on this path,
whereas the success path (`computeData`) would have parsed the same text. -/
theorem claim_C9 (e : JsError) (req : HttpRequest) (r : RawResponse)
    (h1 : e.isError = true) (h2 : e.typ ≠ some "request-timeout")
    (h3 : e.response = some r) :
    handleRequestError e req = Except.ok ⟨r.status, r.headers, Sum.inr r.body⟩ ∧
    (∀ parse v, parse r.body = some v → jsonTruthy v = true →
      computeData parse r.body = Sum.inl v) := by
  constructor
  · simp [handleRequestError, h1, h2, h3]
  · intro parse v hv ht
    simp [computeData, hv, ht]

/-- Claim C9 witness: a concrete 404 error with an attached body reaches the
caller as raw text, although the success path would have parsed it. -/
theorem claim_C9_witness :
    handleRequestError respErr cxReq = Except.ok ⟨404, [("c", "d")], Sum.inr "oops"⟩ ∧
    computeData parseOne "oops" = Sum.inl (Json.num 1) := by
  have t := claim_C9 respErr cxReq ⟨404, [("c", "d")], "oops"⟩ rfl (by simp [respErr]) rfl
  exact ⟨t.1, t.2 parseOne (Json.num 1) rfl rfl⟩

/-- Claim C10 (confirmed): for every multipart file part (filename declared,
nonempty content), the local file path is the second space-separated token
of the content, not the whole content: when the token list has no nonempty
second element the construction fails with the invalid-file-path error, and
otherwise the second token (everything up to the content's first space being
discarded, and the token ending at the next space) is resolved against the
base directory and checked for existence. -/
theorem claim_C10 (fsEx : String → Bool) (baseDir : String)
    (hs : List (String × String)) (cd nm fn c : String)
    (hcd : hget hs "content-disposition" = some cd)
    (hnm : extractQuoted "name=\"" cd = some nm)
    (hfn : extractQuoted "filename=\"" cd = some fn)
    (hc : c ≠ "") :
    ((splitStr c " ").getD 1 "" = "" →
      finishFormData fsEx baseDir hs (some c) = Except.error "Invalid file path format.") ∧
    (∀ fp, (splitStr c " ").getD 1 "" = fp → fp ≠ "" →
      finishFormData fsEx baseDir hs (some c) =
        if fsEx (resolvePath baseDir fp) then
          Except.ok ⟨nm, FormValue.fileStream (resolvePath baseDir fp), some fn,
            hget hs "content-type"⟩
        else Except.error (fp ++ " is not found.")) := by
  constructor
  · intro h
    simp only [finishFormData, hcd, Option.some_bind, hnm, hfn, if_neg hc, h]
    simp
  · intro fp hfp hne
    simp only [finishFormData, hcd, Option.some_bind, hnm, hfn, if_neg hc, hfp, if_neg hne]

/-- Claim C10 witness: the file part content `< pic.png` yields the path
`pic.png` (the second token), which is reported missing when the filesystem
has no such file. -/
theorem claim_C10_witness :
    finishFormData (fun _ => false) "/b" filePartHs (some "< pic.png") =
      Except.error "pic.png is not found." :=
  (claim_C10 (fun _ => false) "/b" filePartHs cdHeader "f" "a.png" "< pic.png"
    rfl rfl rfl (by decide)).2 "pic.png" (by decide) (by decide)

/-- Claim C4 counterexample: a Content-Type header stored under the casing
`CONTENT-TYPE` is visible to a case-insensitive lookup but the executor's
body construction does not find it — the effective Content-Type is absent
and the structured body passes through without entering the JSON branch
(whose output would have been the serialized string). -/
theorem claim_C4_counterexample :
    caseInsensitiveGet [("CONTENT-TYPE", "application/json")] "Content-Type" =
      some "application/json" ∧
    effContentType [("CONTENT-TYPE", "application/json")] = none ∧
    buildFetchConfig (fun _ => false) "" "GEN" ctOddReq =
      Except.ok ⟨"POST", "http://x", [("CONTENT-TYPE", "application/json")],
        BodyData.structured (Json.obj []), requestTimeout, false⟩ := by
  refine ⟨rfl, by decide, rfl⟩

/-- Claim C4 (corrected): the executor's Content-Type lookup covers exactly
the two stored casings `Content-Type` and `content-type` (preferring the
former, with the empty string falling through); a key stored under any other
casing is not found, so lookup is not case-insensitive. -/
theorem claim_C4_amended (hs : List (String × String)) (v : String) :
    (hget hs "Content-Type" = some v → v ≠ "" → effContentType hs = some v) ∧
    (hget hs "Content-Type" = none → hget hs "content-type" = some v → v ≠ "" →
      effContentType hs = some v) ∧
    (hget hs "Content-Type" = none → hget hs "content-type" = none →
      effContentType hs = none) ∧
    (∀ k v2, k ≠ "Content-Type" → k ≠ "content-type" →
      effContentType [(k, v2)] = none) := by
  refine ⟨?_, ?_, ?_, ?_⟩
  · intro h1 h2
    simp [effContentType, jsTruthy, h1, h2]
  · intro h1 h2 h3
    simp [effContentType, jsTruthy, h1, h2, h3]
  · intro h1 h2
    simp [effContentType, jsTruthy, h1, h2]
  · intro k v2 h1 h2
    have b1 : (k == "Content-Type") = false := beq_eq_false_iff_ne.mpr h1
    have b2 : (k == "content-type") = false := beq_eq_false_iff_ne.mpr h2
    simp [effContentType, jsTruthy, hget, List.find?, b1, b2]

/-- Claim C4 witness: the exact lowercase casing is found. -/
theorem claim_C4_witness :
    effContentType [("content-type", "application/json")] = some "application/json" :=
  (claim_C4_amended [("content-type", "application/json")] "application/json").2.1
    rfl rfl (by decide)

/-- Claim C8 counterexample: with a substitution that rewrites every string
and a request whose body is structured JSON, `applyVariables` leaves the
body untouched while the specification's reading (substitution across the
body, structured or not) would rewrite it — so the dispatched copy does not
have placeholders replaced inside structured bodies. -/
theorem claim_C8_counterexample :
    applyVariables replZ structReq ≠ specApplyVariables replZ structReq ∧
    (applyVariables replZ structReq).body = some (Sum.inr (Json.str "$\x7bx\x7d")) ∧
    (specApplyVariables replZ structReq).body = some (Sum.inr (Json.str "Z")) := by
  refine ⟨?_, rfl, rfl⟩
  intro h
  have hb := congrArg HttpRequest.body h
  have hb2 : some (Sum.inr (Json.str "$\x7bx\x7d")) = some (Sum.inr (Json.str "Z")) := hb
  injection hb2 with hb3
  injection hb3 with hb4
  injection hb4 with hb5
  exact absurd hb5 (by decide)

/-- Claim C8 (corrected): before dispatch, variable substitution is applied
to the url and to every header value of the request, and to the body only
when the body is a raw string; a structured body (and an absent body) passes
through verbatim. -/
theorem claim_C8_amended (repl : String → String) (r : HttpRequest) :
    (applyVariables repl r).url = repl r.url ∧
    (applyVariables repl r).headers = r.headers.map (fun p => (p.1, repl p.2)) ∧
    (∀ s, r.body = some (Sum.inl s) →
      (applyVariables repl r).body = some (Sum.inl (repl s))) ∧
    (∀ j, r.body = some (Sum.inr j) →
      (applyVariables repl r).body = some (Sum.inr j)) ∧
    (r.body = none → (applyVariables repl r).body = none) := by
  refine ⟨rfl, rfl, ?_, ?_, ?_⟩
  · intro s hs
    simp [applyVariables, hs]
  · intro j hj
    simp [applyVariables, hj]
  · intro hn
    simp [applyVariables, hn]

/-- Claim C8 witness: the structured body of a concrete request passes
through `applyVariables` unchanged. -/
theorem claim_C8_witness :
    (applyVariables replZ structReq).body = some (Sum.inr (Json.str "$\x7bx\x7d")) :=
  (claim_C8_amended replZ structReq).2.2.2.1 (Json.str "$\x7bx\x7d") rfl

/-- Claim C7 (confirmed): every successfully built main dispatch carries the
fixed 10-second timeout and an agent that does not reject unauthorized
certificates, and the liveness probe uses the same certificate-accepting
policy under its fixed 5-second timeout. -/
theorem claim_C7 (fsEx : String → Bool) (baseDir boundary : String)
    (r : HttpRequest) (cfg : FetchConfig)
    (h : buildFetchConfig fsEx baseDir boundary r = Except.ok cfg) :
    cfg.timeout = requestTimeout ∧ requestTimeout = 10000 ∧
    cfg.agentRejectUnauthorized = false ∧
    (∀ u, (probeConfig u).agentRejectUnauthorized = false ∧
      (probeConfig u).timeout = serverCheckTimeout) ∧
    serverCheckTimeout = 5000 := by
  have key : cfg.timeout = requestTimeout ∧ cfg.agentRejectUnauthorized = false := by
    unfold buildFetchConfig at h
    split at h
    · injection h with h2
      rw [← h2]
      exact ⟨rfl, rfl⟩
    · split at h
      · injection h with h2
        rw [← h2]
        exact ⟨rfl, rfl⟩
      · split at h
        · split at h
          · obtain ⟨a, _, hb⟩ := except_map_ok _ _ _ h
            rw [← hb]
            exact ⟨rfl, rfl⟩
          · exact absurd h (by simp)
        · injection h with h2
          rw [← h2]
          exact ⟨rfl, rfl⟩
  exact ⟨key.1, rfl, key.2, fun u => ⟨rfl, rfl⟩, rfl⟩

/-- Claim C7 witness: the options built for a concrete request have the
fixed timeout and the relaxed TLS policy. -/
theorem claim_C7_witness :
    cxMainCfg.timeout = requestTimeout ∧ requestTimeout = 10000 ∧
    cxMainCfg.agentRejectUnauthorized = false ∧
    (∀ u, (probeConfig u).agentRejectUnauthorized = false ∧
      (probeConfig u).timeout = serverCheckTimeout) ∧
    serverCheckTimeout = 5000 :=
  claim_C7 (fun _ => true) "" "GEN" cxReq cxMainCfg rfl

/-- Helper: when the header value of `k` is absent, the first-match search
for `k` fails. -/
theorem find?_eq_none_of_hget_none {hs : List (String × String)} {k : String}
    (h : hget hs k = none) : List.find? (fun p => p.1 == k) hs = none := by
  unfold hget at h
  cases hf : List.find? (fun p => p.1 == k) hs with
  | none => rfl
  | some p => rw [hf] at h; simp at h

/-- Helper: a key deleted by `hdel` is no longer found. -/
theorem hget_hdel_self (hs : List (String × String)) (k : String) :
    hget (hdel hs k) k = none := by
  unfold hget hdel
  cases hf : List.find? (fun p => p.1 == k) (List.filter (fun p => p.1 != k) hs) with
  | none => rfl
  | some p =>
    have hpred := List.find?_some hf
    have hmem := List.mem_filter.mp (List.mem_of_find?_eq_some hf)
    simp only [beq_iff_eq] at hpred
    simp only [bne_iff_ne] at hmem
    exact absurd hpred hmem.2

/-- Helper: `hdel` never introduces a key. -/
theorem hget_hdel_none (hs : List (String × String)) (k k2 : String)
    (h : hget hs k = none) : hget (hdel hs k2) k = none := by
  unfold hget hdel
  cases hf : List.find? (fun p => p.1 == k) (List.filter (fun p => p.1 != k2) hs) with
  | none => rfl
  | some p =>
    have hpred := List.find?_some hf
    have hmem := List.mem_filter.mp (List.mem_of_find?_eq_some hf)
    have hall := List.find?_eq_none.mp (find?_eq_none_of_hget_none h) p hmem.1
    exact absurd hpred hall

/-- Helper: appending a fresh binding makes it findable. -/
theorem hget_append_single (t : List (String × String)) (k v : String)
    (h : hget t k = none) : hget (t ++ [(k, v)]) k = some v := by
  unfold hget
  rw [List.find?_append, find?_eq_none_of_hget_none h]
  simp [List.find?]

/-- Helper: appending a binding for a different key finds nothing new. -/
theorem hget_append_single_other (t : List (String × String)) (k k2 v : String)
    (h : hget t k = none) (hne : (k2 == k) = false) :
    hget (t ++ [(k2, v)]) k = none := by
  unfold hget
  rw [List.find?_append, find?_eq_none_of_hget_none h]
  simp [List.find?, hne]

/-- Helper: when the key is absent, `hset` appends it. -/
theorem hset_eq_append_of_hget_none (hs : List (String × String)) (k v : String)
    (h : hget hs k = none) : hset hs k v = hs ++ [(k, v)] := by
  unfold hset
  have hany : hs.any (fun p => p.1 == k) = false := by
    cases hA : hs.any (fun p => p.1 == k) with
    | false => rfl
    | true =>
      obtain ⟨x, hx, hpx⟩ := List.any_eq_true.mp hA
      exact absurd hpx (List.find?_eq_none.mp (find?_eq_none_of_hget_none h) x hx)
  simp [hany]

/-- Claim C1 counterexample: a dispatch that succeeds with the
JSON-parseable body text `false` (which parses to the JSON value `false`)
yields a `Response` whose `data` is the raw text, not the parsed value —
the falsy parse result is discarded by the `||` fallback. -/
theorem claim_C1_counterexample :
    cxWorld.parse "false" = some (Json.bool false) ∧
    (execute cxWorld "" cxReq).1 = Except.ok ⟨200, [], Sum.inr "false"⟩ ∧
    (Except.ok ⟨200, [], Sum.inr "false"⟩ : Except String HttpResponse) ≠
      Except.ok ⟨200, [], Sum.inl (Json.bool false)⟩ := by
  refine ⟨rfl, rfl, ?_⟩
  intro h
  injection h with h2
  have hd := congrArg HttpResponse.data h2
  exact Sum.noConfusion hd

/-- Claim C1 (corrected): for every dispatch that succeeds, the returned
`Response` has `data` equal to the parsed JSON value when the body text
parses to a truthy value; when the body parses to a falsy value (`false`,
`0`, `null`, the empty string) or is not JSON-parseable, `data` is the raw
body text. -/
theorem claim_C1_amended (w : World) (baseDir : String) (r : HttpRequest)
    (resp : RawResponse) (cfg : FetchConfig)
    (h1 : w.urlOk (applyVariables w.repl r).url = true)
    (h2 : checkServerStatus w.probeResult (applyVariables w.repl r).url = Except.ok ())
    (h3 : buildFetchConfig w.fsEx baseDir w.boundary (applyVariables w.repl r) = Except.ok cfg)
    (h4 : w.dispatch = Except.ok resp) :
    (execute w baseDir r).1 =
      Except.ok ⟨resp.status, resp.headers, computeData w.parse resp.body⟩ ∧
    (∀ v, w.parse resp.body = some v → jsonTruthy v = true →
      computeData w.parse resp.body = Sum.inl v) ∧
    (∀ v, w.parse resp.body = some v → jsonTruthy v = false →
      computeData w.parse resp.body = Sum.inr resp.body) ∧
    (w.parse resp.body = none → computeData w.parse resp.body = Sum.inr resp.body) := by
  refine ⟨?_, ?_, ?_, ?_⟩
  · simp [execute, h1, h2, h3, h4]
  · intro v hv ht
    simp [computeData, hv, ht]
  · intro v hv ht
    simp [computeData, hv, ht]
  · intro hn
    simp [computeData, hn]

/-- Claim C1 witness: the concrete successful dispatch of `cxWorld` returns
the assembled response. -/
theorem claim_C1_amended_witness :
    (execute cxWorld "" cxReq).1 =
      Except.ok ⟨200, [], computeData cxWorld.parse "false"⟩ :=
  (claim_C1_amended cxWorld "" cxReq ⟨200, [], "false"⟩ cxMainCfg rfl rfl rfl rfl).1

/-- Claim C6 (confirmed): when the substituted URL does not parse, `execute`
raises a `RequestError` (whose message embeds the invalid-URL report) and no
fetch call at all is issued — validation precedes both the liveness probe
and the main dispatch. -/
theorem claim_C6 (w : World) (baseDir : String) (r : HttpRequest)
    (h : w.urlOk (applyVariables w.repl r).url = false) :
    (execute w baseDir r).1 =
      Except.error ("Request to " ++ (applyVariables w.repl r).url ++ " failed: " ++
        ("Invalid URL: " ++ (applyVariables w.repl r).url)) ∧
    (execute w baseDir r).2 = [] := by
  constructor
  · simp [execute, h, handleRequestError, plainError]
  · simp [execute, h]

/-- Claim C6 witness: a rejected concrete URL raises before any network
call. -/
theorem claim_C6_witness :
    (execute badUrlWorld "" cxReq).1 =
      Except.error "Request to http://x failed: Invalid URL: http://x" ∧
    (execute badUrlWorld "" cxReq).2 = [] :=
  claim_C6 badUrlWorld "" cxReq rfl

/-- Claim C5 (confirmed): under a valid URL the first fetch issued is always
the HEAD probe to the target URL under the 5-second timeout; when the probe
fails with a timeout-typed error, `execute` raises a `RequestError`
embedding the server-not-responding report and the main dispatch is never
issued; when the probe outcome is anything else, the run is identical to a
run whose probe succeeded. -/
theorem claim_C5 (w : World) (baseDir : String) (r : HttpRequest)
    (h : w.urlOk (applyVariables w.repl r).url = true) :
    ((execute w baseDir r).2.head? = some (probeConfig (applyVariables w.repl r).url) ∧
     (probeConfig (applyVariables w.repl r).url).method = "HEAD" ∧
     (probeConfig (applyVariables w.repl r).url).timeout = serverCheckTimeout ∧
     serverCheckTimeout = 5000 ∧
     (probeConfig (applyVariables w.repl r).url).url = (applyVariables w.repl r).url) ∧
    (∀ e, w.probeResult = some e → e.isError = true → e.typ = some "request-timeout" →
      (execute w baseDir r).1 =
        Except.error ("Request to " ++ (applyVariables w.repl r).url ++ " failed: " ++
          ("Server is not responding at " ++ (applyVariables w.repl r).url ++
            ". Please check if the server is running.")) ∧
      (execute w baseDir r).2 = [probeConfig (applyVariables w.repl r).url]) ∧
    ((∀ e, w.probeResult = some e → ¬(e.isError = true ∧ e.typ = some "request-timeout")) →
      execute w baseDir r = execute { w with probeResult := none } baseDir r) := by
  refine ⟨⟨?_, rfl, rfl, rfl, rfl⟩, ?_, ?_⟩
  · cases hcs : checkServerStatus w.probeResult (applyVariables w.repl r).url with
    | error msg => simp [execute, h, hcs]
    | ok u =>
      cases hbf : buildFetchConfig w.fsEx baseDir w.boundary (applyVariables w.repl r) with
      | error msg => simp [execute, h, hcs, hbf]
      | ok cfg =>
        cases hd : w.dispatch with
        | error e => simp [execute, h, hcs, hbf, hd]
        | ok resp => simp [execute, h, hcs, hbf, hd]
  · intro e he hie hty
    have hcs : checkServerStatus w.probeResult (applyVariables w.repl r).url =
        Except.error ("Server is not responding at " ++ (applyVariables w.repl r).url ++
          ". Please check if the server is running.") := by
      simp [checkServerStatus, he, hie, hty]
    constructor
    · simp [execute, h, hcs, handleRequestError, plainError]
    · simp [execute, h, hcs]
  · intro hno
    have hcs := checkServerStatus_ok_of_not_timeout w.probeResult
      (applyVariables w.repl r).url hno
    simp only [execute, hcs]
    rfl

/-- Claim C5 witness: a concrete timeout-typed probe failure surfaces as the
server-not-responding `RequestError`. -/
theorem claim_C5_witness :
    (execute probeTimeoutWorld "" cxReq).1 =
      Except.error "Request to http://x failed: Server is not responding at http://x. Please check if the server is running." :=
  ((claim_C5 probeTimeoutWorld "" cxReq rfl).2.1
    { isError := true, typ := some "request-timeout", response := none, message := "pt" }
    rfl rfl rfl).1

/-- Claim C3 counterexample: the multipart claim fails in two ways — a
Content-Type stored under the casing `Content-type` is not found, so the
body is not decomposed and the stored header is not removed or replaced; and
a file part whose content is exactly a path to an existing file (no leading
token and space) fails with the invalid-file-path error instead of being
interpreted as that path. -/
theorem claim_C3_counterexample :
    buildFetchConfig (fun _ => true) "" "GEN" mpReqOddCase =
      Except.ok ⟨"POST", "http://x", [("Content-type", "multipart/form-data; boundary=B")],
        BodyData.str mpBody, requestTimeout, false⟩ ∧
    finishFormData (fun _ => true) "" filePartHs (some "pic.png") =
      Except.error "Invalid file path format." := by
  exact ⟨rfl, rfl⟩

/-- Claim C3 (corrected): for requests whose Content-Type is stored under
exactly `Content-Type` or `content-type` and includes
`multipart/form-data` (and not `application/json`), the raw string body is
decomposed on the `--boundary` delimiter into form entries; the two exact
casings of the Content-Type key are removed and the form library's own
`content-type: multipart/form-data; boundary=...` header replaces them; for
each file part the second space-separated token of the content is the local
path, resolved against the executor's base directory, with a file-not-found
failure when it does not exist; for each text part the literal content is
appended. -/
theorem claim_C3_amended :
    (∀ (fsEx : String → Bool) (baseDir boundary : String) (r : HttpRequest)
        (s ct : String) (entries : List FormEntry),
      r.body = some (Sum.inl s) →
      effContentType r.headers = some ct →
      containsSubstring ct "application/json" = false →
      containsSubstring ct "multipart/form-data" = true →
      parseFormData fsEx baseDir r.headers s = Except.ok entries →
      buildFetchConfig fsEx baseDir boundary r =
        Except.ok ⟨r.method, r.url, multipartHeaders r.headers boundary,
          BodyData.form entries boundary, requestTimeout, false⟩) ∧
    (∀ (hs : List (String × String)) (boundary : String),
      hget (multipartHeaders hs boundary) "content-type" =
        some ("multipart/form-data; boundary=" ++ boundary) ∧
      hget (multipartHeaders hs boundary) "Content-Type" = none) ∧
    (∀ (fsEx : String → Bool) (baseDir : String) (hs : List (String × String))
        (cd nm fn c fp : String),
      hget hs "content-disposition" = some cd →
      extractQuoted "name=\"" cd = some nm →
      extractQuoted "filename=\"" cd = some fn →
      c ≠ "" → (splitStr c " ").getD 1 "" = fp → fp ≠ "" →
      (fsEx (resolvePath baseDir fp) = true →
        finishFormData fsEx baseDir hs (some c) =
          Except.ok ⟨nm, FormValue.fileStream (resolvePath baseDir fp), some fn,
            hget hs "content-type"⟩) ∧
      (fsEx (resolvePath baseDir fp) = false →
        finishFormData fsEx baseDir hs (some c) =
          Except.error (fp ++ " is not found."))) ∧
    (∀ (fsEx : String → Bool) (baseDir : String) (hs : List (String × String))
        (cd nm c : String),
      hget hs "content-disposition" = some cd →
      extractQuoted "name=\"" cd = some nm →
      extractQuoted "filename=\"" cd = none →
      finishFormData fsEx baseDir hs (some c) =
        Except.ok ⟨nm, FormValue.text (some c), none, hget hs "content-type"⟩) := by
  refine ⟨?_, ?_, ?_, ?_⟩
  · intro fsEx baseDir boundary r s ct entries hb hct hj hm hpf
    simp [buildFetchConfig, hct, hj, hm, hb, hpf, Except.map, multipartHeaders]
  · intro hs boundary
    have h1 : hget (hdel (hdel hs "Content-Type") "content-type") "content-type" = none :=
      hget_hdel_self _ _
    have h2 : hget (hdel (hdel hs "Content-Type") "content-type") "Content-Type" = none :=
      hget_hdel_none _ _ _ (hget_hdel_self _ _)
    unfold multipartHeaders
    rw [hset_eq_append_of_hget_none _ _ _ h1]
    exact ⟨hget_append_single _ _ _ h1,
      hget_append_single_other _ _ _ _ h2 (by decide)⟩
  · intro fsEx baseDir hs cd nm fn c fp hcd hnm hfn hc hfp hne
    constructor
    · intro hex
      simp only [finishFormData, hcd, Option.some_bind, hnm, hfn, if_neg hc, hfp,
        if_neg hne, hex]
      simp
    · intro hex
      simp only [finishFormData, hcd, Option.some_bind, hnm, hfn, if_neg hc, hfp,
        if_neg hne, hex]
      simp
  · intro fsEx baseDir hs cd nm c hcd hnm hfn
    simp only [finishFormData, hcd, Option.some_bind, hnm, hfn]

/-- Claim C3 witness: a concrete multipart request under the exact casing is
decomposed into its single text part and the headers are replaced. -/
theorem claim_C3_witness :
    buildFetchConfig (fun _ => true) "" "GEN" mpReqExact =
      Except.ok ⟨"POST", "http://x",
        multipartHeaders [("Content-Type", "multipart/form-data; boundary=B")] "GEN",
        BodyData.form [⟨"t", FormValue.text (some "v"), none, none⟩] "GEN",
        requestTimeout, false⟩ :=
  claim_C3_amended.1 (fun _ => true) "" "GEN" mpReqExact mpBody
    "multipart/form-data; boundary=B" [⟨"t", FormValue.text (some "v"), none, none⟩]
    rfl rfl rfl rfl rfl

end RestClient
